import Mathlib

/-!
Shallow embedding of the binary-uploader server and client core
(repository totokunaga/binary-uploader).

Server side (src/server):
* data model: `File`, `FileChunk` (src/server/internal/domain/entity/file.go,
  src/server/internal/interface/repository/database/file_chunk_model.go);
* repository operations (src/server/internal/interface/repository/database/file_repository.go);
* filesystem storage operations
  (src/server/internal/interface/repository/storage/filesystem_repository.go);
* use cases `ExecuteInit`, `Execute` (chunk write), `ExecuteFailRecovery`
  (src/server/internal/usecase/file_upload_usecase.go) and the delete use case
  (src/server/internal/usecase/file_delete_usecase.go);
* the ingest handler flow `FileUploadHandler.Execute`.

Client side (src/cli): the precheck decision function
`InitUploadUsecase.ExecutePrecheck` (src/cli/internal/usecase/init_upload_usecase.go).

The database is modelled as in-memory lists of rows, the filesystem as an
association list from chunk paths to byte lists.  A chunk path
`<base>/<file_name>/<chunk_number>` is modelled as the pair
`(file_name, chunk_number)` since the base directory is a fixed constant.
Each Go repository call that runs in one DB transaction is one atomic state
update here.  Times are integers (nanoseconds); byte values are `Nat`.
-/

/-- File and chunk status enum, from the server entity package:
INITIALIZED, IN_PROGRESS, FAILED, UPLOADED. -/
inductive FileStatus where
  | initialized
  | inProgress
  | failed
  | uploaded
deriving DecidableEq, Repr

/-- A row of the `files` table (server entity `File` / `FileModel`).
Timestamps are omitted: no modelled operation reads them. -/
structure File where
  id : Nat
  name : String
  size : Nat
  checksum : String
  chunkSize : Nat
  status : FileStatus
  totalChunks : Nat
  uploadedChunks : Nat
deriving DecidableEq, Repr

/-- A chunk path `<base>/<file_name>/<chunk_number>`, modelled as the pair
of the file name and the chunk number (the base directory is constant). -/
abbrev ChunkPath := String × Nat

/-- A row of the `file_chunks` table (server entity `FileChunk` / `FileChunkModel`). -/
structure FileChunk where
  id : Nat
  parentId : Nat
  chunkNumber : Nat
  size : Nat
  filePath : ChunkPath
  status : FileStatus
deriving DecidableEq, Repr

/-- The filesystem content: an association list from chunk paths to the bytes
stored at that path. -/
abbrev Disk := List (ChunkPath × List Nat)

/-- `NewFile` (src/server/internal/domain/entity/file.go): a fresh `File`
entity with status INITIALIZED and zero uploaded chunks. -/
def NewFile (name : String) (size : Nat) (checksum : String)
    (totalChunks : Nat) (chunkSize : Nat) : File :=
  { id := 0
    name := name
    size := size
    checksum := checksum
    chunkSize := chunkSize
    status := FileStatus.initialized
    totalChunks := totalChunks
    uploadedChunks := 0 }

/-- Whole server state: both DB tables, the filesystem (files and directories),
the in-memory free-space counter, and the auto-increment counters of the two
tables. -/
structure ServerState where
  files : List File
  chunks : List FileChunk
  disk : Disk
  dirs : List String
  available : Nat
  nextFileId : Nat
  nextChunkId : Nat
deriving DecidableEq, Repr

/-- The five error kinds of the server
(src/server/internal/domain/entity/error): INVALID_INPUT, NOT_FOUND,
DATABASE, FILE_STORAGE, CONTEXT. -/
inductive ErrKind where
  | invalidInput
  | notFound
  | database
  | fileStorage
  | contextErr
deriving DecidableEq, Repr

/-! ### Filesystem primitives (storageRepository) -/

/-- Look up the bytes stored at a path. -/
def diskGet (d : Disk) (p : ChunkPath) : Option (List Nat) :=
  (d.find? (fun e => decide (e.1 = p))).map (·.2)

/-- `os.Create`: create the file at `p`, truncating any existing content. -/
def diskCreate (d : Disk) (p : ChunkPath) : Disk :=
  d.filter (fun e => decide (e.1 ≠ p)) ++ [(p, [])]

/-- `file.Write`: append bytes to the (existing) file at `p`. -/
def diskAppend (d : Disk) (p : ChunkPath) (bs : List Nat) : Disk :=
  d.map (fun e => if e.1 = p then (e.1, e.2 ++ bs) else e)

/-- `os.Remove` as used by `storageRepository.DeleteFile` / `DeleteChunk`:
remove the entry at `p`; a missing file is not an error. -/
def diskRemove (d : Disk) (p : ChunkPath) : Disk :=
  d.filter (fun e => decide (e.1 ≠ p))

/-- `storageRepository.CreateDirectory` / `os.MkdirAll` effect on the
directory listing. -/
def dirsAdd (ds : List String) (name : String) : List String :=
  if name ∈ ds then ds else ds ++ [name]

/-- `storageRepository.DeleteDirectory` / `os.RemoveAll`: drop the directory
and every file stored under it. -/
def deleteDirectoryFS (d : Disk) (ds : List String) (name : String) :
    Disk × List String :=
  (d.filter (fun e => decide (e.1.1 ≠ name)), ds.filter (fun n => decide (n ≠ name)))

/-- One result of `reader.Read` inside `storageRepository.WriteChunk`:
either a successful read of `bs` bytes, a context cancellation observed by
the `select`, or a read/write failure. -/
inductive ReadStep where
  | data (bs : List Nat)
  | cancel
  | fail
deriving DecidableEq, Repr

/-- The streaming loop of `storageRepository.WriteChunk`: a read of 0 bytes
(also an exhausted reader) ends the loop successfully; a cancellation yields
a CONTEXT error; a read or write failure yields a FILE_STORAGE error, leaving
the bytes written so far on disk. -/
def writeLoop (d : Disk) (p : ChunkPath) : List ReadStep → Disk × Option ErrKind
  | [] => (d, none)
  | ReadStep.cancel :: _ => (d, some ErrKind.contextErr)
  | ReadStep.fail :: _ => (d, some ErrKind.fileStorage)
  | ReadStep.data bs :: rest =>
    if bs = [] then (d, none)
    else writeLoop (diskAppend d p bs) p rest

/-- `storageRepository.WriteChunk`: ensure the directory exists, create
(truncate) the file, then stream the reader into it. -/
def writeChunkFS (d : Disk) (ds : List String) (p : ChunkPath)
    (reads : List ReadStep) : Disk × List String × Option ErrKind :=
  let ds1 := dirsAdd ds p.1
  let d1 := diskCreate d p
  let (d2, e) := writeLoop d1 p reads
  (d2, ds1, e)

/-! ### Database repository operations (fileRepository) -/

/-- `fileRepository.GetFileByName`: first row of `files` with the given name
(`nil` when absent). -/
def getFileByName (s : ServerState) (name : String) : Option File :=
  s.files.find? (fun f => decide (f.name = name))

/-- Lookup of a `files` row by primary key, as in `db.First(&fileModel, fileID)`. -/
def getFileById (s : ServerState) (fid : Nat) : Option File :=
  s.files.find? (fun f => decide (f.id = fid))

/-- Lookup of a `file_chunks` row by `(parent_id, chunk_number)`, as in
`fileRepository.GetFileAndChunk`. -/
def getChunkByNumber (s : ServerState) (fid : Nat) (cn : Nat) : Option FileChunk :=
  s.chunks.find? (fun c => decide (c.parentId = fid ∧ c.chunkNumber = cn))

/-- `fileRepository.GetChunksByFileID`: all chunk rows of a parent file. -/
def getChunksByFileID (s : ServerState) (fid : Nat) : List FileChunk :=
  s.chunks.filter (fun c => decide (c.parentId = fid))

/-- `fileRepository.GetChunksByStatus`: chunk rows of a parent file whose
status is in the given list. -/
def getChunksByStatus (s : ServerState) (fid : Nat) (sts : List FileStatus) :
    List FileChunk :=
  s.chunks.filter (fun c => decide (c.parentId = fid ∧ c.status ∈ sts))

/-- `fileRepository.UpdateFileStatus`: set the status of the `files` row with
the given id. -/
def updateFileStatus (s : ServerState) (fid : Nat) (st : FileStatus) : ServerState :=
  { s with files := s.files.map (fun f => if f.id = fid then { f with status := st } else f) }

/-- `fileRepository.UpdateChunksStatus`: one transaction setting the status of
every `file_chunks` row whose primary key is in `cids`. -/
def updateChunksStatus (s : ServerState) (cids : List Nat) (st : FileStatus) : ServerState :=
  { s with chunks := s.chunks.map (fun c => if c.id ∈ cids then { c with status := st } else c) }

/-- `fileRepository.UpdateFileAndChunkStatus`: one transaction setting the
status of the `files` row with id `fid` and of every `file_chunks` row whose
primary key is in `cids`. -/
def updateFileAndChunkStatus (s : ServerState) (fid : Nat) (cids : List Nat)
    (st : FileStatus) : ServerState :=
  { s with
    files := s.files.map (fun f => if f.id = fid then { f with status := st } else f)
    chunks := s.chunks.map (fun c => if c.id ∈ cids then { c with status := st } else c) }

/-- `fileRepository.IncrementUploadedChunks`: one transaction incrementing
`uploaded_chunks` of the `files` row with id `fid` and reading back
`(uploaded_chunks, total_chunks)`.  A failing read-back rolls the
transaction back (state unchanged, DATABASE error). -/
def incrementUploadedChunks (s : ServerState) (fid : Nat) :
    ServerState × Option (Nat × Nat) :=
  let files2 := s.files.map
    (fun f => if f.id = fid then { f with uploadedChunks := f.uploadedChunks + 1 } else f)
  match files2.find? (fun f => decide (f.id = fid)) with
  | none => (s, none)
  | some f => ({ s with files := files2 }, some (f.uploadedChunks, f.totalChunks))

/-- `fileRepository.CreateFileWithChunks`: one transaction inserting the
`files` row (fresh auto-increment id) and its `total_chunks` child rows with
chunk numbers `0 .. total_chunks - 1`, all INITIALIZED, each with file path
`<base>/<name>/<i>`.  Returns the created row. -/
def createFileWithChunks (s : ServerState) (file : File) : ServerState × File :=
  let fid := s.nextFileId
  let created := { file with id := fid }
  let newChunks := (List.range file.totalChunks).map
    (fun i =>
      { id := s.nextChunkId + i
        parentId := fid
        chunkNumber := i
        size := 0
        filePath := (file.name, i)
        status := FileStatus.initialized : FileChunk })
  ({ s with
      files := s.files ++ [created]
      chunks := s.chunks ++ newChunks
      nextFileId := s.nextFileId + 1
      nextChunkId := s.nextChunkId + file.totalChunks }, created)

/-- `fileRepository.DeleteFileByID`: delete the `files` row; the foreign key
cascades to its `file_chunks` rows. -/
def deleteFileByID (s : ServerState) (fid : Nat) : ServerState :=
  { s with
    files := s.files.filter (fun f => decide (f.id ≠ fid))
    chunks := s.chunks.filter (fun c => decide (c.parentId ≠ fid)) }

/-- `storageRepository.UpdateAvailableSpace`: add `sizeChange` to the free
space counter when non-negative, else subtract, saturating at zero. -/
def updateAvailableSpace (avail : Nat) (sizeChange : Int) : Nat :=
  if 0 ≤ sizeChange then avail + sizeChange.toNat
  else
    let sizeToRemove := (-sizeChange).toNat
    if avail < sizeToRemove then 0 else avail - sizeToRemove

/-! ### Server use cases (fileUploadUseCase, fileDeleteUseCase) -/

/-- Input of `fileUploadUseCase.ExecuteInit`. -/
structure InitInput where
  fileName : String
  checksum : String
  totalSize : Nat
  totalChunks : Nat
  chunkSize : Nat
  isReupload : Bool
deriving DecidableEq, Repr

/-- `fileUploadUseCase.ExecuteInit` (src/server/internal/usecase/file_upload_usecase.go,
lines 49-139).  `createDirOk` is the outcome of the `CreateDirectory` storage
call made during this invocation (the storage layer can fail independently of
the DB).  Returns the new state together with either an error kind or the
`(file, invalidChunks)` pair the handler turns into the init response. -/
def executeInit (createDirOk : Bool) (s : ServerState) (input : InitInput) :
    ServerState × Except ErrKind (File × List FileChunk) :=
  -- free-space admission check
  if s.available < input.totalSize then (s, Except.error ErrKind.fileStorage)
  else
    match getFileByName s input.fileName with
    | none =>
      -- fresh name: insert files row + chunk rows, then create the directory
      let file := NewFile input.fileName input.totalSize input.checksum
        input.totalChunks input.chunkSize
      let (s1, created) := createFileWithChunks s file
      if createDirOk then
        ({ s1 with dirs := dirsAdd s1.dirs input.fileName }, Except.ok (created, []))
      else (s1, Except.error ErrKind.fileStorage)
    | some existingFile =>
      if ¬(existingFile.checksum = input.checksum ∧ existingFile.size = input.totalSize) then
        (s, Except.error ErrKind.invalidInput)
      else if existingFile.status = FileStatus.initialized then
        if createDirOk then
          ({ s with dirs := dirsAdd s.dirs input.fileName }, Except.ok (existingFile, []))
        else (s, Except.error ErrKind.fileStorage)
      else if ¬input.isReupload then (s, Except.error ErrKind.invalidInput)
      else if existingFile.status = FileStatus.uploaded then
        (s, Except.error ErrKind.invalidInput)
      else
        -- resume: select the chunks that are not UPLOADED, delete their bytes,
        -- reset the non-INITIALIZED ones to INITIALIZED, adjust the counter
        let invalidChunks := getChunksByStatus s existingFile.id
          [FileStatus.initialized, FileStatus.inProgress, FileStatus.failed]
        let d1 := invalidChunks.foldl (fun d c => diskRemove d c.filePath) s.disk
        let s1 := { s with disk := d1 }
        let chunkIDsToUpdate :=
          (invalidChunks.filter (fun c => decide (c.status ≠ FileStatus.initialized))).map (·.id)
        let s2 :=
          if chunkIDsToUpdate.length > 0 then
            updateChunksStatus s1 chunkIDsToUpdate FileStatus.initialized
          else s1
        let s3 := { s2 with available := updateAvailableSpace s2.available (Int.ofNat input.totalSize) }
        (s3, Except.ok (existingFile, invalidChunks))

/-- Input of `fileUploadUseCase.Execute` (one chunk upload). -/
structure UploadInput where
  fileId : Nat
  chunkNumber : Nat
  reads : List ReadStep
deriving DecidableEq, Repr

/-- `fileUploadUseCase.Execute` (src/server/internal/usecase/file_upload_usecase.go,
lines 142-195): validate the `(file, chunk)` pair, promote to IN_PROGRESS,
stream the body to the chunk path, promote the chunk to UPLOADED, increment
the counter and, when it reaches `total_chunks`, promote the file. -/
def executeUpload (s : ServerState) (input : UploadInput) :
    ServerState × Option ErrKind :=
  match getFileById s input.fileId with
  | none => (s, some ErrKind.notFound)
  | some file =>
    match getChunkByNumber s input.fileId input.chunkNumber with
    | none => (s, some ErrKind.notFound)
    | some chunk =>
      if ¬((file.status = FileStatus.initialized ∨ file.status = FileStatus.inProgress)
          ∧ chunk.status = FileStatus.initialized) then
        (s, some ErrKind.invalidInput)
      else
        let s1 :=
          if file.status = FileStatus.initialized then
            updateFileAndChunkStatus s file.id [chunk.id] FileStatus.inProgress
          else updateChunksStatus s [chunk.id] FileStatus.inProgress
        match writeChunkFS s1.disk s1.dirs chunk.filePath input.reads with
        | (d2, ds2, some e) => ({ s1 with disk := d2, dirs := ds2 }, some e)
        | (d2, ds2, none) =>
          let s2 := { s1 with disk := d2, dirs := ds2 }
          let s3 := updateChunksStatus s2 [chunk.id] FileStatus.uploaded
          match incrementUploadedChunks s3 file.id with
          | (s4, none) => (s4, some ErrKind.database)
          | (s4, some (uploadedChunks, totalChunks)) =>
            if uploadedChunks = totalChunks then
              (updateFileStatus s4 file.id FileStatus.uploaded, none)
            else (s4, none)

/-- The states committed by the successive DB transactions inside one
`fileUploadUseCase.Execute` run (same structure as `executeUpload`):
IN_PROGRESS promotion, chunk UPLOADED promotion, counter increment, final
file promotion.  The storage write between the first two commits changes no
DB row, so it is not a commit point. -/
def executeUploadCommits (s : ServerState) (input : UploadInput) : List ServerState :=
  match getFileById s input.fileId with
  | none => []
  | some file =>
    match getChunkByNumber s input.fileId input.chunkNumber with
    | none => []
    | some chunk =>
      if ¬((file.status = FileStatus.initialized ∨ file.status = FileStatus.inProgress)
          ∧ chunk.status = FileStatus.initialized) then []
      else
        let s1 :=
          if file.status = FileStatus.initialized then
            updateFileAndChunkStatus s file.id [chunk.id] FileStatus.inProgress
          else updateChunksStatus s [chunk.id] FileStatus.inProgress
        match writeChunkFS s1.disk s1.dirs chunk.filePath input.reads with
        | (d2, ds2, some _) => [{ s1 with disk := d2, dirs := ds2 }]
        | (d2, ds2, none) =>
          let s2 := { s1 with disk := d2, dirs := ds2 }
          let s3 := updateChunksStatus s2 [chunk.id] FileStatus.uploaded
          match incrementUploadedChunks s3 file.id with
          | (s4, none) => [s1, s3, s4]
          | (s4, some (uploadedChunks, totalChunks)) =>
            if uploadedChunks = totalChunks then
              [s1, s3, s4, updateFileStatus s4 file.id FileStatus.uploaded]
            else [s1, s3, s4]

/-- `fileUploadUseCase.ExecuteFailRecovery` (lines 197-203): one transaction
setting the `files` row with id `fileId` to FAILED and the `file_chunks` row
whose primary key equals `chunkId` to FAILED. -/
def executeFailRecovery (s : ServerState) (fileId : Nat) (chunkId : Nat) : ServerState :=
  updateFileAndChunkStatus s fileId [chunkId] FileStatus.failed

/-- `FileUploadHandler.Execute` (chunk ingest): run the upload use case; on
any use-case error, invoke `ExecuteFailRecovery` with the file id and the
chunk number taken from the URL, then report the original error. -/
def handleUploadChunk (s : ServerState) (input : UploadInput) :
    ServerState × Option ErrKind :=
  match executeUpload s input with
  | (s1, none) => (s1, none)
  | (s1, some e) => (executeFailRecovery s1 input.fileId input.chunkNumber, some e)

/-- `fileDeleteUseCase.Execute` (src/server/internal/usecase/file_delete_usecase.go,
lines 30-74): look up by name (absent means NOT_FOUND), delete every chunk
file (individual errors ignored), remove the file directory, delete the
`files` row (cascading to chunk rows), credit the free-space counter. -/
def executeDelete (s : ServerState) (fileName : String) :
    ServerState × Option ErrKind :=
  match getFileByName s fileName with
  | none => (s, some ErrKind.notFound)
  | some file =>
    let chunks := getChunksByFileID s file.id
    let d1 := chunks.foldl (fun d c => diskRemove d c.filePath) s.disk
    let (d2, ds2) := deleteDirectoryFS d1 s.dirs fileName
    let s1 := deleteFileByID { s with disk := d2, dirs := ds2 } file.id
    ({ s1 with available := updateAvailableSpace s1.available (Int.ofNat file.size) }, none)

/-! ### Client precheck (InitUploadUsecase.ExecutePrecheck) -/

/-- The file-stats observation the client receives from `GetFileStats`
(src/cli/internal/domain/entity/file.go `FileStatsResp`).  The status is kept
as the raw string of the wire format; times are integers. -/
structure FileStatsResp where
  checksum : String
  size : Nat
  status : String
  updatedAt : Int
  uploadTimeoutSecond : Int
deriving DecidableEq, Repr

/-- The client decision after the precheck
(src/cli/internal/usecase/init_upload_usecase.go `PostPrecheckAction`). -/
inductive PostPrecheckAction where
  | proceedWithInit
  | proceedWithReUpload
  | suggestExistingEntryDeletion
  | exits
  | returnError
deriving DecidableEq, Repr

/-- The decision core of `InitUploadUsecase.ExecutePrecheck` (lines 50-105):
a pure function of the stats observation (`none` models a nil response), the
locally computed checksum and size, and the current time. -/
def executePrecheck (stats : Option FileStatsResp) (checksum : String)
    (fileSize : Nat) (now : Int) : PostPrecheckAction :=
  match stats with
  | none => PostPrecheckAction.proceedWithInit
  | some st =>
    if ¬(st.checksum = checksum ∧ st.size = fileSize) then
      PostPrecheckAction.suggestExistingEntryDeletion
    else if st.status = "UPLOADED" then PostPrecheckAction.exits
    else if st.status = "INITIALIZED" then PostPrecheckAction.proceedWithInit
    else if st.status = "FAILED" then PostPrecheckAction.proceedWithReUpload
    else if st.status = "IN_PROGRESS" then
      if st.updatedAt < now - st.uploadTimeoutSecond then
        PostPrecheckAction.proceedWithReUpload
      else PostPrecheckAction.exits
    else PostPrecheckAction.suggestExistingEntryDeletion

/-! ### Derived observations used by the claims -/

/-- Number of chunk rows of file `fid` whose status is UPLOADED. -/
def countUploaded (cs : List FileChunk) (fid : Nat) : Nat :=
  (cs.filter (fun c => decide (c.parentId = fid ∧ c.status = FileStatus.uploaded))).length

/-- Invariant I1: for every file row, `uploaded_chunks` equals the number of
its chunk rows with status UPLOADED. -/
def I1 (s : ServerState) : Prop :=
  ∀ f ∈ s.files, f.uploadedChunks = countUploaded s.chunks f.id

/-- Executable version of `I1`. -/
def checkI1 (s : ServerState) : Bool :=
  s.files.all (fun f => f.uploadedChunks = countUploaded s.chunks f.id)

/-- Status of the file row with id `fid`, when present. -/
def fileStatusById (s : ServerState) (fid : Nat) : Option FileStatus :=
  (getFileById s fid).map (·.status)

/-- Status of the chunk row at `(parent_id, chunk_number)`, when present. -/
def chunkStatusByNumber (s : ServerState) (fid : Nat) (cn : Nat) : Option FileStatus :=
  (getChunkByNumber s fid cn).map (·.status)

/-! ### Concrete scenario: a two-chunk file named "a"

An empty server with 100 bytes of free space; the file is 8 bytes in two
4-byte chunks.  Run A is an uninterrupted upload.  Run B writes chunk 0,
has the client disconnect in the middle of chunk 1, re-initializes with
is_reupload, and then writes the remaining chunk. -/

/-- Empty server state with 100 bytes of free space. -/
def emptyState : ServerState :=
  { files := [], chunks := [], disk := [], dirs := [], available := 100,
    nextFileId := 1, nextChunkId := 1 }

/-- Init parameters of the scenario file. -/
def initInputA : InitInput :=
  { fileName := "a", checksum := "c", totalSize := 8, totalChunks := 2,
    chunkSize := 4, isReupload := false }

/-- The same init parameters with is_reupload set. -/
def reInitInputA : InitInput := { initInputA with isReupload := true }

/-- State after the fresh init (both runs start here). -/
def stateInit : ServerState := (executeInit true emptyState initInputA).1

/-- State after chunk 0 is written successfully (both runs). -/
def stateChunk0 : ServerState :=
  (handleUploadChunk stateInit
    { fileId := 1, chunkNumber := 0, reads := [ReadStep.data [1, 2, 3, 4]] }).1

/-- Run A: chunk 1 is written successfully. -/
def runAFinal : ServerState :=
  (handleUploadChunk stateChunk0
    { fileId := 1, chunkNumber := 1, reads := [ReadStep.data [5, 6, 7, 8]] }).1

/-- Run B: the ingest of chunk 1, with the client disconnecting after 2 of
its 4 bytes (the handler then runs the fail-recovery hook). -/
def runBDisconnect : ServerState × Option ErrKind :=
  handleUploadChunk stateChunk0
    { fileId := 1, chunkNumber := 1, reads := [ReadStep.data [5, 6], ReadStep.cancel] }

/-- Run B: the re-init with is_reupload=true after the disconnect. -/
def runBReInit : ServerState × Except ErrKind (File × List FileChunk) :=
  executeInit true runBDisconnect.1 reInitInputA

/-- Run B: writing the remaining chunk 1 after the re-init. -/
def runBRewrite : ServerState × Option ErrKind :=
  handleUploadChunk runBReInit.1
    { fileId := 1, chunkNumber := 1, reads := [ReadStep.data [5, 6, 7, 8]] }

/-- C1.  Resume round-trip (R2) fails on the code: after `init; write chunk 0;
disconnect during chunk 1; init(is_reupload=true); write chunk 1`, the final
state does not match the uninterrupted upload.  The re-init resets only the
chunk rows (`ExecuteInit` calls `UpdateChunksStatus`, which does not touch the
`files` row), so the file stays FAILED, the rewrite of chunk 1 is rejected
with INVALID_INPUT by the status guard of `Execute`, and the file never
reaches UPLOADED, whereas the uninterrupted run ends with the file UPLOADED
and both chunk files on disk. -/
theorem resume_roundtrip_fails :
    fileStatusById runAFinal 1 = some FileStatus.uploaded ∧
    diskGet runAFinal.disk ("a", 0) = some [1, 2, 3, 4] ∧
    diskGet runAFinal.disk ("a", 1) = some [5, 6, 7, 8] ∧
    runBDisconnect.2 = some ErrKind.contextErr ∧
    fileStatusById runBDisconnect.1 1 = some FileStatus.failed ∧
    runBReInit.2.isOk = true ∧
    runBRewrite.2 = some ErrKind.invalidInput ∧
    fileStatusById runBRewrite.1 1 = some FileStatus.failed ∧
    runBRewrite.1 ≠ runAFinal := by
  decide

/-- A server state in the middle of an upload: file 1 is IN_PROGRESS, its
chunk 0 (primary key 1) is IN_PROGRESS, its chunk 1 (primary key 2) is
INITIALIZED.  Auto-increment ids do not coincide with chunk numbers. -/
def stateMidUpload : ServerState :=
  { files := [{ id := 1, name := "a", size := 8, checksum := "c", chunkSize := 4,
                status := FileStatus.inProgress, totalChunks := 2, uploadedChunks := 0 }],
    chunks := [{ id := 1, parentId := 1, chunkNumber := 0, size := 0,
                 filePath := ("a", 0), status := FileStatus.inProgress },
               { id := 2, parentId := 1, chunkNumber := 1, size := 0,
                 filePath := ("a", 1), status := FileStatus.initialized }],
    disk := [(("a", 0), [1, 2])], dirs := ["a"], available := 92,
    nextFileId := 2, nextChunkId := 3 }

/-- C2.  `FailRecovery(file_id=1, chunk_number=0)` on `stateMidUpload` does
not set the chunk at position 0 of file 1 to FAILED: the ingest handler
passes the URL chunk number into `ExecuteFailRecovery`, whose repository
call (`UpdateFileAndChunkStatus`) matches the chunk row by primary key `id`,
and no chunk row has id 0.  The file row is set to FAILED, but the
interrupted chunk stays IN_PROGRESS, contradicting the claimed behaviour
(and the spec sentence that the corresponding chunk ends up FAILED). -/
theorem failRecovery_misses_chunk :
    fileStatusById (executeFailRecovery stateMidUpload 1 0) 1 = some FileStatus.failed ∧
    chunkStatusByNumber (executeFailRecovery stateMidUpload 1 0) 1 0 =
      some FileStatus.inProgress ∧
    chunkStatusByNumber (executeFailRecovery stateMidUpload 1 0) 1 0 ≠
      some FileStatus.failed := by
  decide

/-- C3.  A successful fresh-admit `InitUpload` does not decrement the
free-space accountant: `ExecuteInit` never calls `UpdateAvailableSpace` in
the no-existing-row branch, so the available value stays 100 after admitting
an 8-byte file (the claim requires 92).  The only `UpdateAvailableSpace`
call in `ExecuteInit` is in the resume branch and passes a positive value,
which by that function's own contract adds space instead of reserving it. -/
theorem init_fresh_keeps_available :
    (executeInit true emptyState initInputA).2.isOk = true ∧
    (executeInit true emptyState initInputA).1.available = 100 ∧
    (executeInit true emptyState initInputA).1.available ≠ 100 - initInputA.totalSize := by
  decide

/-- A server state where file 1 already has chunk 0 UPLOADED and counted:
I1 holds. -/
def stateOneUploaded : ServerState :=
  { files := [{ id := 1, name := "a", size := 8, checksum := "c", chunkSize := 4,
                status := FileStatus.inProgress, totalChunks := 2, uploadedChunks := 1 }],
    chunks := [{ id := 1, parentId := 1, chunkNumber := 0, size := 0,
                 filePath := ("a", 0), status := FileStatus.uploaded },
               { id := 2, parentId := 1, chunkNumber := 1, size := 0,
                 filePath := ("a", 1), status := FileStatus.initialized }],
    disk := [(("a", 0), [1, 2, 3, 4])], dirs := ["a"], available := 92,
    nextFileId := 2, nextChunkId := 3 }

/-- The upload of the last chunk of `stateOneUploaded`. -/
def lastChunkInput : UploadInput :=
  { fileId := 1, chunkNumber := 1, reads := [ReadStep.data [5, 6, 7, 8]] }

/-- C7 counterexample.  I1 does not hold after every transaction commit:
during a successful `WriteChunk` on `stateOneUploaded` (where I1 holds), the
chunk promotion to UPLOADED and the counter increment are two separate
transactions, and at the commit directly after the promotion the UPLOADED
count is 2 while `uploaded_chunks` is still 1.  The commit trace evaluates
I1 to `[true, false, true, true]`, and the last committed state is the
result of the operation. -/
theorem i1_fails_at_intermediate_commit :
    checkI1 stateOneUploaded = true ∧
    (executeUpload stateOneUploaded lastChunkInput).2 = none ∧
    ((executeUploadCommits stateOneUploaded lastChunkInput).map checkI1) =
      [true, false, true, true] ∧
    (executeUploadCommits stateOneUploaded lastChunkInput).getLast? =
      some (executeUpload stateOneUploaded lastChunkInput).1 := by
  decide

/-! ### C6: the client precheck decision -/

/-- C6.  The precheck is a pure decision function of the observation: a nil
stats response yields ProceedWithInit; a differing remote checksum or size
yields SuggestExistingEntryDeletion; same content with status UPLOADED
yields Exits, with INITIALIZED yields ProceedWithInit, with FAILED yields
ProceedWithReUpload; and same content with status IN_PROGRESS yields
ProceedWithReUpload exactly when `updated_at < now - upload_timeout_seconds`,
and Exits otherwise. -/
theorem precheck_decision_cases (st : FileStatsResp) (checksum : String)
    (fileSize : Nat) (now : Int) :
    executePrecheck none checksum fileSize now = PostPrecheckAction.proceedWithInit ∧
    (¬(st.checksum = checksum ∧ st.size = fileSize) →
      executePrecheck (some st) checksum fileSize now =
        PostPrecheckAction.suggestExistingEntryDeletion) ∧
    (st.checksum = checksum → st.size = fileSize →
      (st.status = "UPLOADED" →
        executePrecheck (some st) checksum fileSize now = PostPrecheckAction.exits) ∧
      (st.status = "INITIALIZED" →
        executePrecheck (some st) checksum fileSize now =
          PostPrecheckAction.proceedWithInit) ∧
      (st.status = "FAILED" →
        executePrecheck (some st) checksum fileSize now =
          PostPrecheckAction.proceedWithReUpload) ∧
      (st.status = "IN_PROGRESS" →
        (executePrecheck (some st) checksum fileSize now =
            PostPrecheckAction.proceedWithReUpload ↔
          st.updatedAt < now - st.uploadTimeoutSecond) ∧
        (¬ st.updatedAt < now - st.uploadTimeoutSecond →
          executePrecheck (some st) checksum fileSize now = PostPrecheckAction.exits))) := by
  refine ⟨rfl, ?_, ?_⟩
  · intro h
    simp only [executePrecheck, if_pos h]
  · intro hc hs
    have hsame : st.checksum = checksum ∧ st.size = fileSize := ⟨hc, hs⟩
    refine ⟨?_, ?_, ?_, ?_⟩
    · intro hst
      simp [executePrecheck, hsame, hst]
    · intro hst
      simp [executePrecheck, hsame, hst]
    · intro hst
      simp [executePrecheck, hsame, hst]
    · intro hst
      by_cases horph : st.updatedAt < now - st.uploadTimeoutSecond
      · constructor
        · simp [executePrecheck, hsame, hst, horph]
        · intro hn; exact absurd horph hn
      · constructor
        · simp [executePrecheck, hsame, hst, horph]
        · intro _
          simp [executePrecheck, hsame, hst, horph]

/-- Witness for C6: a same-content IN_PROGRESS observation last updated at
time 0, observed at time 10 with a 5-unit timeout, is orphaned and yields
ProceedWithReUpload. -/
theorem precheck_decision_cases_witness :
    executePrecheck
      (some { checksum := "c", size := 1, status := "IN_PROGRESS",
              updatedAt := 0, uploadTimeoutSecond := 5 }) "c" 1 10 =
      PostPrecheckAction.proceedWithReUpload :=
  ((((precheck_decision_cases
      { checksum := "c", size := 1, status := "IN_PROGRESS",
        updatedAt := 0, uploadTimeoutSecond := 5 } "c" 1 10).2.2 rfl rfl).2.2.2
    rfl).1).mpr (by decide)

/-! ### C4: rejected chunk writes -/

/-- C4 counterexample.  A `WriteChunk` whose file row is absent fails with
NOT_FOUND, not INVALID_INPUT: `fileRepository.GetFileAndChunk` returns a
NOT_FOUND error for a missing row, and the use case propagates it (the
`file == nil` branch that would produce INVALID_INPUT is unreachable). -/
theorem writeChunk_absent_is_notFound :
    executeUpload emptyState { fileId := 1, chunkNumber := 0, reads := [] } =
      (emptyState, some ErrKind.notFound) ∧
    (some ErrKind.notFound ≠ some ErrKind.invalidInput) := by
  decide

/-- C4 (amended).  Every rejected `WriteChunk` leaves the state untouched
(no filesystem write, no status change): an absent file row or absent chunk
row (including `chunk_number = total_chunks`, for which no row exists) yields
NOT_FOUND, and a present pair whose states disallow writing
(`file.status ∉ {INITIALIZED, IN_PROGRESS}` or `chunk.status ≠ INITIALIZED`,
including an already-UPLOADED chunk) yields INVALID_INPUT. -/
theorem writeChunk_reject_no_effect (s : ServerState) (input : UploadInput) :
    (getFileById s input.fileId = none →
      executeUpload s input = (s, some ErrKind.notFound)) ∧
    (∀ f, getFileById s input.fileId = some f →
      getChunkByNumber s input.fileId input.chunkNumber = none →
      executeUpload s input = (s, some ErrKind.notFound)) ∧
    (∀ f c, getFileById s input.fileId = some f →
      getChunkByNumber s input.fileId input.chunkNumber = some c →
      ¬((f.status = FileStatus.initialized ∨ f.status = FileStatus.inProgress) ∧
        c.status = FileStatus.initialized) →
      executeUpload s input = (s, some ErrKind.invalidInput)) := by
  refine ⟨?_, ?_, ?_⟩
  · intro h
    simp [executeUpload, h]
  · intro f hf hc
    simp [executeUpload, hf, hc]
  · intro f c hf hc hst
    simp [executeUpload, hf, hc, hst]

/-- Witness for C4 (amended): on `stateOneUploaded`, rewriting the already
UPLOADED chunk 0 of file 1 is rejected with INVALID_INPUT and no effect. -/
theorem writeChunk_reject_no_effect_witness :
    executeUpload stateOneUploaded { fileId := 1, chunkNumber := 0, reads := [] } =
      (stateOneUploaded, some ErrKind.invalidInput) :=
  (writeChunk_reject_no_effect stateOneUploaded
      { fileId := 1, chunkNumber := 0, reads := [] }).2.2
    { id := 1, name := "a", size := 8, checksum := "c", chunkSize := 4,
      status := FileStatus.inProgress, totalChunks := 2, uploadedChunks := 1 }
    { id := 1, parentId := 1, chunkNumber := 0, size := 0,
      filePath := ("a", 0), status := FileStatus.uploaded }
    (by decide) (by decide) (by decide)

/-! ### Helper lemmas about the disk and the row lists -/

theorem diskGet_diskCreate (d : Disk) (p : ChunkPath) :
    diskGet (diskCreate d p) p = some [] := by
  have hnone : (d.filter (fun e => decide (e.1 ≠ p))).find? (fun e => decide (e.1 = p)) = none := by
    rw [List.find?_eq_none]
    intro e he
    have := List.of_mem_filter he
    simp at this ⊢
    exact this
  simp [diskGet, diskCreate, List.find?_append, hnone]

theorem diskGet_filter_none (d : Disk) (q : ChunkPath × List Nat → Bool) (p : ChunkPath)
    (h : diskGet d p = none) : diskGet (d.filter q) p = none := by
  simp only [diskGet, Option.map_eq_none'] at h ⊢
  rw [List.find?_eq_none] at h ⊢
  intro e he
  exact h e (List.mem_of_mem_filter he)

theorem diskGet_diskRemove_self (d : Disk) (p : ChunkPath) :
    diskGet (diskRemove d p) p = none := by
  simp only [diskGet, diskRemove, Option.map_eq_none']
  rw [List.find?_eq_none]
  intro e he
  have := List.of_mem_filter he
  simp at this ⊢
  exact this

theorem diskGet_diskRemove_none (d : Disk) (q p : ChunkPath)
    (h : diskGet d p = none) : diskGet (diskRemove d q) p = none :=
  diskGet_filter_none d _ p h

theorem diskGet_foldl_remove_none (cs : List FileChunk) (d : Disk) (p : ChunkPath)
    (h : diskGet d p = none) :
    diskGet (cs.foldl (fun d2 x => diskRemove d2 x.filePath) d) p = none := by
  induction cs generalizing d with
  | nil => exact h
  | cons x t ih => exact ih (diskRemove d x.filePath) (diskGet_diskRemove_none d x.filePath p h)

theorem diskGet_foldl_remove_mem (cs : List FileChunk) (d : Disk) (c : FileChunk)
    (hc : c ∈ cs) :
    diskGet (cs.foldl (fun d2 x => diskRemove d2 x.filePath) d) c.filePath = none := by
  induction cs generalizing d with
  | nil => cases hc
  | cons x t ih =>
    rcases List.mem_cons.mp hc with h | h
    · subst h
      exact diskGet_foldl_remove_none t (diskRemove d c.filePath) c.filePath
        (diskGet_diskRemove_self d c.filePath)
    · exact ih (diskRemove d x.filePath) h

theorem find?_file_map (l : List File) (g : File → File)
    (hg : ∀ f, (g f).id = f.id) (fid : Nat) :
    (l.map g).find? (fun f => decide (f.id = fid)) =
      Option.map g (l.find? (fun f => decide (f.id = fid))) := by
  rw [List.find?_map]
  have hpred : ((fun f : File => decide (f.id = fid)) ∘ g) =
      (fun f : File => decide (f.id = fid)) := by
    funext f
    simp [Function.comp, hg]
  rw [hpred]

theorem find?_chunk_map (l : List FileChunk) (g : FileChunk → FileChunk)
    (hg : ∀ c, (g c).parentId = c.parentId ∧ (g c).chunkNumber = c.chunkNumber)
    (fid cn : Nat) :
    (l.map g).find? (fun c => decide (c.parentId = fid ∧ c.chunkNumber = cn)) =
      Option.map g (l.find? (fun c => decide (c.parentId = fid ∧ c.chunkNumber = cn))) := by
  rw [List.find?_map]
  have hpred : ((fun c : FileChunk => decide (c.parentId = fid ∧ c.chunkNumber = cn)) ∘ g) =
      (fun c : FileChunk => decide (c.parentId = fid ∧ c.chunkNumber = cn)) := by
    funext c
    simp [Function.comp, (hg c).1, (hg c).2]
  rw [hpred]

theorem getFileById_updateFileAndChunkStatus (s : ServerState) (fid0 : Nat)
    (cids : List Nat) (st : FileStatus) (fid : Nat) :
    getFileById (updateFileAndChunkStatus s fid0 cids st) fid =
      Option.map (fun f => if f.id = fid0 then { f with status := st } else f)
        (getFileById s fid) := by
  unfold getFileById updateFileAndChunkStatus
  exact find?_file_map _ _ (fun f => by by_cases h : f.id = fid0 <;> simp [h]) fid

theorem getFileById_updateFileStatus (s : ServerState) (fid0 : Nat)
    (st : FileStatus) (fid : Nat) :
    getFileById (updateFileStatus s fid0 st) fid =
      Option.map (fun f => if f.id = fid0 then { f with status := st } else f)
        (getFileById s fid) := by
  unfold getFileById updateFileStatus
  exact find?_file_map _ _ (fun f => by by_cases h : f.id = fid0 <;> simp [h]) fid

theorem getChunkByNumber_updateChunksStatus (s : ServerState) (cids : List Nat)
    (st : FileStatus) (fid cn : Nat) :
    getChunkByNumber (updateChunksStatus s cids st) fid cn =
      Option.map (fun c => if c.id ∈ cids then { c with status := st } else c)
        (getChunkByNumber s fid cn) := by
  unfold getChunkByNumber updateChunksStatus
  exact find?_chunk_map _ _ (fun c => by by_cases h : c.id ∈ cids <;> simp [h]) fid cn

theorem getChunkByNumber_updateFileAndChunkStatus (s : ServerState) (fid0 : Nat)
    (cids : List Nat) (st : FileStatus) (fid cn : Nat) :
    getChunkByNumber (updateFileAndChunkStatus s fid0 cids st) fid cn =
      Option.map (fun c => if c.id ∈ cids then { c with status := st } else c)
        (getChunkByNumber s fid cn) := by
  unfold getChunkByNumber updateFileAndChunkStatus
  exact find?_chunk_map _ _ (fun c => by by_cases h : c.id ∈ cids <;> simp [h]) fid cn

theorem incrementUploadedChunks_found (s : ServerState) (fid : Nat) (f : File)
    (hf : getFileById s fid = some f) :
    incrementUploadedChunks s fid =
      ({ s with files := s.files.map (fun f0 =>
            if f0.id = fid then { f0 with uploadedChunks := f0.uploadedChunks + 1 } else f0) },
       some (f.uploadedChunks + 1, f.totalChunks)) := by
  have hfid : f.id = fid := by
    have h2 := List.find?_some hf
    exact of_decide_eq_true h2
  unfold incrementUploadedChunks
  dsimp only
  rw [find?_file_map _ _ (fun f0 => by by_cases h : f0.id = fid <;> simp [h]) fid]
  unfold getFileById at hf
  rw [hf]
  simp [hfid]

/-- The success-path shape of `executeUpload`: once the `(file, chunk)` pair
is found and the status guard passes, the run is the promotion pipeline. -/
theorem executeUpload_success_shape (s : ServerState) (input : UploadInput)
    (f : File) (c : FileChunk)
    (hf : getFileById s input.fileId = some f)
    (hc : getChunkByNumber s input.fileId input.chunkNumber = some c)
    (hfst : f.status = FileStatus.initialized ∨ f.status = FileStatus.inProgress)
    (hcst : c.status = FileStatus.initialized) :
    executeUpload s input =
      (let s1 :=
        if f.status = FileStatus.initialized then
          updateFileAndChunkStatus s f.id [c.id] FileStatus.inProgress
        else updateChunksStatus s [c.id] FileStatus.inProgress
      match writeChunkFS s1.disk s1.dirs c.filePath input.reads with
      | (d2, ds2, some e) => ({ s1 with disk := d2, dirs := ds2 }, some e)
      | (d2, ds2, none) =>
        let s2 := { s1 with disk := d2, dirs := ds2 }
        let s3 := updateChunksStatus s2 [c.id] FileStatus.uploaded
        match incrementUploadedChunks s3 f.id with
        | (s4, none) => (s4, some ErrKind.database)
        | (s4, some (uploadedChunks, totalChunks)) =>
          if uploadedChunks = totalChunks then
            (updateFileStatus s4 f.id FileStatus.uploaded, none)
          else (s4, none)) := by
  simp only [executeUpload, hf, hc]
  rw [if_neg (not_not_intro ⟨hfst, hcst⟩)]

theorem getFileById_updateChunksStatus (s : ServerState) (cids : List Nat)
    (st : FileStatus) (fid : Nat) :
    getFileById (updateChunksStatus s cids st) fid = getFileById s fid := rfl

theorem getChunkByNumber_updateFileStatus (s : ServerState) (fid0 : Nat)
    (st : FileStatus) (fid cn : Nat) :
    getChunkByNumber (updateFileStatus s fid0 st) fid cn = getChunkByNumber s fid cn := rfl

theorem getFileById_id_eq (s : ServerState) (fid : Nat) (f : File)
    (hf : getFileById s fid = some f) : f.id = fid := by
  unfold getFileById at hf
  have h2 := List.find?_some hf
  simpa using h2

theorem getChunkByNumber_keys_eq (s : ServerState) (fid cn : Nat) (c : FileChunk)
    (hc : getChunkByNumber s fid cn = some c) : c.parentId = fid ∧ c.chunkNumber = cn := by
  unfold getChunkByNumber at hc
  have h2 := List.find?_some hc
  simpa using h2

/-- The complete success run of `executeUpload` with an empty request body:
every repository step spelled out. -/
theorem executeUpload_empty_body_run (s : ServerState) (input : UploadInput)
    (f : File) (c : FileChunk)
    (hf : getFileById s input.fileId = some f)
    (hc : getChunkByNumber s input.fileId input.chunkNumber = some c)
    (hfst : f.status = FileStatus.initialized ∨ f.status = FileStatus.inProgress)
    (hcst : c.status = FileStatus.initialized)
    (hreads : input.reads = []) :
    executeUpload s input =
      (let s1 :=
        if f.status = FileStatus.initialized then
          updateFileAndChunkStatus s f.id [c.id] FileStatus.inProgress
        else updateChunksStatus s [c.id] FileStatus.inProgress
      let s3 := updateChunksStatus
        { s1 with disk := diskCreate s1.disk c.filePath, dirs := dirsAdd s1.dirs c.filePath.1 }
        [c.id] FileStatus.uploaded
      let s4 := { s3 with files := s3.files.map (fun f0 =>
            if f0.id = f.id then { f0 with uploadedChunks := f0.uploadedChunks + 1 } else f0) }
      if f.uploadedChunks + 1 = f.totalChunks then
        (updateFileStatus s4 f.id FileStatus.uploaded, none)
      else (s4, none)) := by
  have hfid : f.id = input.fileId := getFileById_id_eq s input.fileId f hf
  rw [executeUpload_success_shape s input f c hf hc hfst hcst, hreads]
  by_cases hin : f.status = FileStatus.initialized
  · rw [if_pos hin]
    dsimp only [writeChunkFS, writeLoop]
    have e1 : getFileById
        (updateChunksStatus
          { updateFileAndChunkStatus s f.id [c.id] FileStatus.inProgress with
              disk := diskCreate (updateFileAndChunkStatus s f.id [c.id] FileStatus.inProgress).disk c.filePath,
              dirs := dirsAdd (updateFileAndChunkStatus s f.id [c.id] FileStatus.inProgress).dirs c.filePath.1 }
          [c.id] FileStatus.uploaded) f.id =
        some { f with status := FileStatus.inProgress } := by
      show getFileById (updateFileAndChunkStatus s f.id [c.id] FileStatus.inProgress) f.id =
        some { f with status := FileStatus.inProgress }
      rw [getFileById_updateFileAndChunkStatus, hfid, hf]
      simp [hfid]
    rw [incrementUploadedChunks_found _ _ _ e1]
  · rw [if_neg hin]
    dsimp only [writeChunkFS, writeLoop]
    have e1 : getFileById
        (updateChunksStatus
          { updateChunksStatus s [c.id] FileStatus.inProgress with
              disk := diskCreate (updateChunksStatus s [c.id] FileStatus.inProgress).disk c.filePath,
              dirs := dirsAdd (updateChunksStatus s [c.id] FileStatus.inProgress).dirs c.filePath.1 }
          [c.id] FileStatus.uploaded) f.id = some f := by
      show getFileById s f.id = some f
      rw [hfid]
      exact hf
    rw [incrementUploadedChunks_found _ _ _ e1]

theorem getChunkByNumber_setFiles (s : ServerState) (l : List File) (fid cn : Nat) :
    getChunkByNumber { s with files := l } fid cn = getChunkByNumber s fid cn := rfl

theorem getChunkByNumber_setDiskDirs (s : ServerState) (d : Disk) (ds : List String)
    (fid cn : Nat) :
    getChunkByNumber { s with disk := d, dirs := ds } fid cn = getChunkByNumber s fid cn := rfl

theorem getFileById_setDiskDirs (s : ServerState) (d : Disk) (ds : List String) (fid : Nat) :
    getFileById { s with disk := d, dirs := ds } fid = getFileById s fid := rfl

theorem getFileById_mapIncrement (s : ServerState) (fid0 fid : Nat) :
    getFileById { s with files := s.files.map (fun f0 =>
        if f0.id = fid0 then { f0 with uploadedChunks := f0.uploadedChunks + 1 } else f0) } fid =
      Option.map (fun f0 =>
          if f0.id = fid0 then { f0 with uploadedChunks := f0.uploadedChunks + 1 } else f0)
        (getFileById s fid) := by
  unfold getFileById
  exact find?_file_map _ _ (fun f0 => by by_cases h : f0.id = fid0 <;> simp [h]) fid

/-- C10.  A `WriteChunk` on a writable `(file, chunk)` pair whose reader
yields zero bytes succeeds: the chunk file is created empty (truncating any
prior bytes at that path), the chunk row is promoted to UPLOADED, and
`uploaded_chunks` is incremented — the streaming loop treats a 0-byte read
as normal end of input. -/
theorem writeChunk_empty_body_succeeds (s : ServerState) (input : UploadInput)
    (f : File) (c : FileChunk)
    (hf : getFileById s input.fileId = some f)
    (hc : getChunkByNumber s input.fileId input.chunkNumber = some c)
    (hfst : f.status = FileStatus.initialized ∨ f.status = FileStatus.inProgress)
    (hcst : c.status = FileStatus.initialized)
    (hreads : input.reads = []) :
    (executeUpload s input).2 = none ∧
    diskGet (executeUpload s input).1.disk c.filePath = some [] ∧
    chunkStatusByNumber (executeUpload s input).1 input.fileId input.chunkNumber =
      some FileStatus.uploaded ∧
    (getFileById (executeUpload s input).1 input.fileId).map (·.uploadedChunks) =
      some (f.uploadedChunks + 1) := by
  have hfid : f.id = input.fileId := getFileById_id_eq s input.fileId f hf
  rw [executeUpload_empty_body_run s input f c hf hc hfst hcst hreads]
  by_cases hin : f.status = FileStatus.initialized
  · rw [if_pos hin]
    dsimp only
    by_cases hlast : f.uploadedChunks + 1 = f.totalChunks
    · rw [if_pos hlast]
      refine ⟨rfl, diskGet_diskCreate _ _, ?_, ?_⟩
      · simp only [chunkStatusByNumber, getChunkByNumber_updateFileStatus,
          getChunkByNumber_setFiles, getChunkByNumber_updateChunksStatus,
          getChunkByNumber_setDiskDirs, getChunkByNumber_updateFileAndChunkStatus, hc]
        simp
      · simp only [getFileById_updateFileStatus, getFileById_mapIncrement,
          getFileById_updateChunksStatus, getFileById_setDiskDirs,
          getFileById_updateFileAndChunkStatus, hf]
        simp [hfid]
    · rw [if_neg hlast]
      refine ⟨rfl, diskGet_diskCreate _ _, ?_, ?_⟩
      · simp only [chunkStatusByNumber, getChunkByNumber_setFiles,
          getChunkByNumber_updateChunksStatus, getChunkByNumber_setDiskDirs,
          getChunkByNumber_updateFileAndChunkStatus, hc]
        simp
      · simp only [getFileById_mapIncrement, getFileById_updateChunksStatus,
          getFileById_setDiskDirs, getFileById_updateFileAndChunkStatus, hf]
        simp [hfid]
  · rw [if_neg hin]
    dsimp only
    by_cases hlast : f.uploadedChunks + 1 = f.totalChunks
    · rw [if_pos hlast]
      refine ⟨rfl, diskGet_diskCreate _ _, ?_, ?_⟩
      · simp only [chunkStatusByNumber, getChunkByNumber_updateFileStatus,
          getChunkByNumber_setFiles, getChunkByNumber_updateChunksStatus,
          getChunkByNumber_setDiskDirs, hc]
        simp
      · simp only [getFileById_updateFileStatus, getFileById_mapIncrement,
          getFileById_updateChunksStatus, getFileById_setDiskDirs, hf]
        simp [hfid]
    · rw [if_neg hlast]
      refine ⟨rfl, diskGet_diskCreate _ _, ?_, ?_⟩
      · simp only [chunkStatusByNumber, getChunkByNumber_setFiles,
          getChunkByNumber_updateChunksStatus, getChunkByNumber_setDiskDirs, hc]
        simp
      · simp only [getFileById_mapIncrement, getFileById_updateChunksStatus,
          getFileById_setDiskDirs, hf]
        simp [hfid]

/-- Witness for C10: writing chunk 1 of `stateOneUploaded` with an empty
body succeeds and increments the counter. -/
theorem writeChunk_empty_body_succeeds_witness :
    (executeUpload stateOneUploaded { fileId := 1, chunkNumber := 1, reads := [] }).2 = none ∧
    diskGet (executeUpload stateOneUploaded
        { fileId := 1, chunkNumber := 1, reads := [] }).1.disk ("a", 1) = some [] ∧
    chunkStatusByNumber (executeUpload stateOneUploaded
        { fileId := 1, chunkNumber := 1, reads := [] }).1 1 1 = some FileStatus.uploaded ∧
    (getFileById (executeUpload stateOneUploaded
        { fileId := 1, chunkNumber := 1, reads := [] }).1 1).map (·.uploadedChunks) =
      some 2 :=
  writeChunk_empty_body_succeeds stateOneUploaded
    { fileId := 1, chunkNumber := 1, reads := [] }
    { id := 1, name := "a", size := 8, checksum := "c", chunkSize := 4,
      status := FileStatus.inProgress, totalChunks := 2, uploadedChunks := 1 }
    { id := 2, parentId := 1, chunkNumber := 1, size := 0,
      filePath := ("a", 1), status := FileStatus.initialized }
    (by decide) (by decide) (by decide) (by decide) (by decide)

/-- The resume branch of `ExecuteInit`, spelled out: once the same-content
existing file is neither INITIALIZED nor UPLOADED and is_reupload is set, the
run selects the non-UPLOADED chunks, deletes their bytes, resets the
non-INITIALIZED ones among them, and adjusts the space counter. -/
theorem executeInit_resume_run (b : Bool) (s : ServerState) (input : InitInput)
    (f : File)
    (hf : getFileByName s input.fileName = some f)
    (hsame : f.checksum = input.checksum ∧ f.size = input.totalSize)
    (hst : f.status = FileStatus.inProgress ∨ f.status = FileStatus.failed)
    (hre : input.isReupload = true)
    (hsp : ¬ s.available < input.totalSize) :
    executeInit b s input =
      (let invalidChunks := getChunksByStatus s f.id
        [FileStatus.initialized, FileStatus.inProgress, FileStatus.failed]
      let d1 := invalidChunks.foldl (fun d cc => diskRemove d cc.filePath) s.disk
      let chunkIDsToUpdate :=
        (invalidChunks.filter (fun cc => decide (cc.status ≠ FileStatus.initialized))).map (·.id)
      let s2 :=
        if chunkIDsToUpdate.length > 0 then
          updateChunksStatus { s with disk := d1 } chunkIDsToUpdate FileStatus.initialized
        else { s with disk := d1 }
      ({ s2 with available := updateAvailableSpace s2.available (Int.ofNat input.totalSize) },
       Except.ok (f, invalidChunks))) := by
  have hne1 : ¬ f.status = FileStatus.initialized := by
    rcases hst with h | h <;> rw [h] <;> intro hcontra <;> cases hcontra
  have hne2 : ¬ f.status = FileStatus.uploaded := by
    rcases hst with h | h <;> rw [h] <;> intro hcontra <;> cases hcontra
  simp only [executeInit, hf]
  rw [if_neg hsp, if_neg (not_not_intro hsame), if_neg hne1,
    if_neg (by simp [hre]), if_neg hne2]

/-- C5.  A resume `InitUpload` (same checksum and size, status IN_PROGRESS or
FAILED, is_reupload=true) returns exactly the child chunks whose status is
not UPLOADED; in the returned (post-commit) state their bytes are gone from
disk and every non-UPLOADED chunk of the file is INITIALIZED. -/
theorem init_resume_resets_missing (b : Bool) (s : ServerState) (input : InitInput)
    (f : File)
    (hf : getFileByName s input.fileName = some f)
    (hsame : f.checksum = input.checksum ∧ f.size = input.totalSize)
    (hst : f.status = FileStatus.inProgress ∨ f.status = FileStatus.failed)
    (hre : input.isReupload = true)
    (hsp : ¬ s.available < input.totalSize) :
    (executeInit b s input).2 =
      Except.ok (f, getChunksByStatus s f.id
        [FileStatus.initialized, FileStatus.inProgress, FileStatus.failed]) ∧
    getChunksByStatus s f.id
        [FileStatus.initialized, FileStatus.inProgress, FileStatus.failed] =
      s.chunks.filter (fun cc => decide (cc.parentId = f.id ∧ cc.status ≠ FileStatus.uploaded)) ∧
    (∀ cc ∈ getChunksByStatus s f.id
        [FileStatus.initialized, FileStatus.inProgress, FileStatus.failed],
      diskGet (executeInit b s input).1.disk cc.filePath = none) ∧
    (∀ cc ∈ (executeInit b s input).1.chunks,
      cc.parentId = f.id → cc.status ≠ FileStatus.uploaded →
        cc.status = FileStatus.initialized) := by
  rw [executeInit_resume_run b s input f hf hsame hst hre hsp]
  dsimp only
  refine ⟨rfl, ?_, ?_, ?_⟩
  · unfold getChunksByStatus
    apply List.filter_congr
    intro x _
    cases h : x.status <;> simp [h]
  · intro cc hcc
    split_ifs <;> exact diskGet_foldl_remove_mem _ s.disk cc hcc
  · intro cc hcc hpar hnup
    split_ifs at hcc with hupd
    · unfold updateChunksStatus at hcc
      dsimp only at hcc
      obtain ⟨x, hx, hxe⟩ := List.mem_map.mp hcc
      by_cases hxid : x.id ∈ List.map (fun x2 => x2.id)
          (List.filter (fun c2 => decide (c2.status ≠ FileStatus.initialized))
            (getChunksByStatus s f.id
              [FileStatus.initialized, FileStatus.inProgress, FileStatus.failed]))
      · rw [if_pos hxid] at hxe
        rw [← hxe]
      · rw [if_neg hxid] at hxe
        obtain rfl := hxe
        by_contra hxst
        apply hxid
        refine List.mem_map.mpr ⟨x, List.mem_filter.mpr ⟨?_, by simpa using hxst⟩, rfl⟩
        unfold getChunksByStatus
        refine List.mem_filter.mpr ⟨hx, ?_⟩
        cases h : x.status <;> simp [h, hpar]
        rw [h] at hnup
        exact hnup rfl
    · dsimp only at hcc
      by_contra hxst
      apply hupd
      have hmem : cc ∈ List.filter (fun c2 => decide (c2.status ≠ FileStatus.initialized))
          (getChunksByStatus s f.id
            [FileStatus.initialized, FileStatus.inProgress, FileStatus.failed]) := by
        refine List.mem_filter.mpr ⟨?_, by simpa using hxst⟩
        unfold getChunksByStatus
        refine List.mem_filter.mpr ⟨hcc, ?_⟩
        cases h : cc.status <;> simp [h, hpar]
        rw [h] at hnup
        exact hnup rfl
      have hidm : cc.id ∈ List.map (fun x2 => x2.id)
          (List.filter (fun c2 => decide (c2.status ≠ FileStatus.initialized))
            (getChunksByStatus s f.id
              [FileStatus.initialized, FileStatus.inProgress, FileStatus.failed])) :=
        List.mem_map.mpr ⟨cc, hmem, rfl⟩
      exact List.length_pos.mpr (List.ne_nil_of_mem hidm)

/-- The `files` row of the resume-witness state: same content as
`initInputA`, status FAILED. -/
def resumeFileRow : File :=
  { id := 1, name := "a", size := 8, checksum := "c", chunkSize := 4,
    status := FileStatus.failed, totalChunks := 2, uploadedChunks := 1 }

/-- A state holding an interrupted upload of "a": chunk 0 UPLOADED, chunk 1
FAILED with partial bytes on disk. -/
def stateResume : ServerState :=
  { files := [resumeFileRow],
    chunks := [{ id := 1, parentId := 1, chunkNumber := 0, size := 0,
                 filePath := ("a", 0), status := FileStatus.uploaded },
               { id := 2, parentId := 1, chunkNumber := 1, size := 0,
                 filePath := ("a", 1), status := FileStatus.failed }],
    disk := [(("a", 0), [1, 2, 3, 4]), (("a", 1), [5, 6])], dirs := ["a"],
    available := 92, nextFileId := 2, nextChunkId := 3 }

/-- Witness for C5: the resume init on `stateResume` returns the FAILED
chunk 1 as the missing set and its partial bytes are gone from disk. -/
theorem init_resume_resets_missing_witness :
    (executeInit true stateResume reInitInputA).2 =
      Except.ok (resumeFileRow, getChunksByStatus stateResume 1
        [FileStatus.initialized, FileStatus.inProgress, FileStatus.failed]) ∧
    diskGet (executeInit true stateResume reInitInputA).1.disk ("a", 1) = none :=
  ⟨(init_resume_resets_missing true stateResume reInitInputA resumeFileRow
      (by decide) (by decide) (by decide) (by decide) (by decide)).1,
   (init_resume_resets_missing true stateResume reInitInputA resumeFileRow
      (by decide) (by decide) (by decide) (by decide) (by decide)).2.2.1
     { id := 2, parentId := 1, chunkNumber := 1, size := 0,
       filePath := ("a", 1), status := FileStatus.failed } (by decide)⟩

/-! ### C8: the delete use case -/

/-- C8.  `DeleteFile(name)` returns NOT_FOUND with no side effects when no
row has that name (hence a second delete of the same name returns
NOT_FOUND), and on success it returns only after the per-chunk deletions
were attempted, the directory was removed, the row was deleted (cascading to
the chunk rows), and the free-space accountant was credited by the file's
size. -/
theorem deleteFile_semantics (s : ServerState) (fileName : String) :
    (getFileByName s fileName = none →
      executeDelete s fileName = (s, some ErrKind.notFound)) ∧
    (∀ f, getFileByName s fileName = some f →
      (s.files.map (fun f2 => f2.name)).Nodup →
      (executeDelete s fileName).2 = none ∧
      (executeDelete s fileName).1.available = s.available + f.size ∧
      getFileByName (executeDelete s fileName).1 fileName = none ∧
      (∀ cc ∈ (executeDelete s fileName).1.chunks, cc.parentId ≠ f.id) ∧
      fileName ∉ (executeDelete s fileName).1.dirs ∧
      (∀ cc ∈ getChunksByFileID s f.id,
        diskGet (executeDelete s fileName).1.disk cc.filePath = none) ∧
      executeDelete (executeDelete s fileName).1 fileName =
        ((executeDelete s fileName).1, some ErrKind.notFound)) := by
  constructor
  · intro h
    simp [executeDelete, h]
  · intro f hf hnames
    have hmem : f ∈ s.files := by
      unfold getFileByName at hf
      exact List.mem_of_find?_eq_some hf
    have hname : f.name = fileName := by
      unfold getFileByName at hf
      have h2 := List.find?_some hf
      simpa using h2
    have hrun : executeDelete s fileName =
        (let chunks := getChunksByFileID s f.id
         let d1 := chunks.foldl (fun d cc => diskRemove d cc.filePath) s.disk
         let p := deleteDirectoryFS d1 s.dirs fileName
         let s1 := deleteFileByID { s with disk := p.1, dirs := p.2 } f.id
         ({ s1 with available := updateAvailableSpace s1.available (Int.ofNat f.size) }, none)) := by
      simp only [executeDelete, hf]
    rw [hrun]
    dsimp only
    have hnone : getFileByName
        (deleteFileByID
          { s with
              disk := (deleteDirectoryFS
                ((getChunksByFileID s f.id).foldl (fun d cc => diskRemove d cc.filePath) s.disk)
                s.dirs fileName).1,
              dirs := (deleteDirectoryFS
                ((getChunksByFileID s f.id).foldl (fun d cc => diskRemove d cc.filePath) s.disk)
                s.dirs fileName).2 }
          f.id) fileName = none := by
      unfold getFileByName deleteFileByID
      dsimp only
      rw [List.find?_eq_none]
      intro g hg
      have hg2 := List.mem_filter.mp hg
      have hgid : g.id ≠ f.id := by simpa using hg2.2
      simp only [decide_eq_true_eq]
      intro hgname
      exact hgid (congrArg File.id
        (List.inj_on_of_nodup_map hnames hg2.1 hmem (by rw [hgname, hname])))
    refine ⟨rfl, rfl, hnone, ?_, ?_, ?_, ?_⟩
    · intro cc hcc
      have hcc2 := List.mem_filter.mp hcc
      simpa using hcc2.2
    · intro hdm
      unfold deleteFileByID at hdm
      dsimp only at hdm
      unfold deleteDirectoryFS at hdm
      dsimp only at hdm
      have := (List.mem_filter.mp hdm).2
      simp at this
    · intro cc hcc
      apply diskGet_filter_none
      exact diskGet_foldl_remove_mem _ s.disk cc hcc
    · have habs : ∀ t : ServerState, getFileByName t fileName = none →
          executeDelete t fileName = (t, some ErrKind.notFound) := by
        intro t ht
        simp [executeDelete, ht]
      exact habs _ hnone

/-- Witness for C8: deleting "a" from `stateResume` succeeds, credits the
accountant, removes rows, bytes and directory, and a second delete returns
NOT_FOUND. -/
theorem deleteFile_semantics_witness :
    (executeDelete stateResume "a").2 = none ∧
    (executeDelete stateResume "a").1.available = 92 + 8 ∧
    getFileByName (executeDelete stateResume "a").1 "a" = none ∧
    executeDelete (executeDelete stateResume "a").1 "a" =
      ((executeDelete stateResume "a").1, some ErrKind.notFound) := by
  have h := (deleteFile_semantics stateResume "a").2 resumeFileRow (by decide) (by decide)
  exact ⟨h.1, h.2.1, h.2.2.1, h.2.2.2.2.2.2⟩

/-! ### C9: directory-creation failure after the insert transaction -/

/-- C9.  When the content-directory creation fails during a fresh-name
`InitUpload` (first call, `createDirOk = false`), the use case returns the
storage error but the committed `files` and `file_chunks` rows stay; a
second `InitUpload` with the same parameters then finds the INITIALIZED row,
re-attempts the directory creation and returns the existing file with no
new rows. -/
theorem init_dir_failure_rows_survive (s : ServerState) (input : InitInput)
    (hname : getFileByName s input.fileName = none)
    (hsp : ¬ s.available < input.totalSize) :
    (executeInit false s input).2 = Except.error ErrKind.fileStorage ∧
    (executeInit false s input).1 =
      (createFileWithChunks s (NewFile input.fileName input.totalSize input.checksum
        input.totalChunks input.chunkSize)).1 ∧
    executeInit true (executeInit false s input).1 input =
      ({ (createFileWithChunks s (NewFile input.fileName input.totalSize input.checksum
            input.totalChunks input.chunkSize)).1 with
          dirs := dirsAdd (createFileWithChunks s (NewFile input.fileName input.totalSize
            input.checksum input.totalChunks input.chunkSize)).1.dirs input.fileName },
       Except.ok ((createFileWithChunks s (NewFile input.fileName input.totalSize
          input.checksum input.totalChunks input.chunkSize)).2, [])) := by
  have h2 : (executeInit false s input).1 =
      (createFileWithChunks s (NewFile input.fileName input.totalSize input.checksum
        input.totalChunks input.chunkSize)).1 := by
    simp only [executeInit, hname]
    rw [if_neg hsp]
    rfl
  have hf2 : getFileByName
      (createFileWithChunks s (NewFile input.fileName input.totalSize input.checksum
        input.totalChunks input.chunkSize)).1 input.fileName =
      some (createFileWithChunks s (NewFile input.fileName input.totalSize input.checksum
        input.totalChunks input.chunkSize)).2 := by
    unfold getFileByName at hname ⊢
    unfold createFileWithChunks
    dsimp only
    rw [List.find?_append, hname]
    simp [NewFile]
  refine ⟨?_, h2, ?_⟩
  · simp only [executeInit, hname]
    rw [if_neg hsp]
    rfl
  · rw [h2]
    simp only [executeInit, hf2]
    rw [if_neg (show ¬ (createFileWithChunks s (NewFile input.fileName input.totalSize
        input.checksum input.totalChunks input.chunkSize)).1.available < input.totalSize
      from hsp)]
    rw [if_neg (not_not_intro ⟨rfl, rfl⟩)]
    rw [if_pos (show (createFileWithChunks s (NewFile input.fileName input.totalSize
        input.checksum input.totalChunks input.chunkSize)).2.status = FileStatus.initialized
      from rfl)]
    rfl

/-- Witness for C9: on the empty state, the failed-directory init followed by
a retry returns the created INITIALIZED row for "a". -/
theorem init_dir_failure_rows_survive_witness :
    (executeInit false emptyState initInputA).2 = Except.error ErrKind.fileStorage ∧
    (executeInit true (executeInit false emptyState initInputA).1 initInputA).2.isOk = true := by
  have h := init_dir_failure_rows_survive emptyState initInputA (by decide) (by decide)
  refine ⟨h.1, ?_⟩
  rw [h.2.2]
  decide

/-! ### C7 (amended): I1 is preserved by a complete successful WriteChunk -/

theorem getChunkByNumber_mem (s : ServerState) (fid cn : Nat) (c : FileChunk)
    (hc : getChunkByNumber s fid cn = some c) : c ∈ s.chunks := by
  unfold getChunkByNumber at hc
  exact List.mem_of_find?_eq_some hc

theorem ids_split (a b : List FileChunk) (c : FileChunk)
    (hnd : ((a ++ c :: b).map (fun x => x.id)).Nodup) :
    (∀ x ∈ a, x.id ≠ c.id) ∧ (∀ x ∈ b, x.id ≠ c.id) := by
  rw [List.map_append, List.map_cons, List.nodup_append] at hnd
  obtain ⟨h1, h2, h3⟩ := hnd
  constructor
  · intro x hx heq
    exact h3 (List.mem_map.mpr ⟨x, hx, rfl⟩) (by rw [heq]; exact List.mem_cons_self _ _)
  · intro x hx heq
    have hni := (List.nodup_cons.mp h2).1
    exact hni (by rw [← heq]; exact List.mem_map.mpr ⟨x, hx, rfl⟩)

theorem chunkUpdate_decomp (a b : List FileChunk) (c : FileChunk) (cid : Nat)
    (st : FileStatus) (hcid : c.id = cid)
    (ha : ∀ x ∈ a, x.id ≠ cid) (hb : ∀ x ∈ b, x.id ≠ cid) :
    (a ++ c :: b).map (fun x => if x.id ∈ [cid] then { x with status := st } else x) =
      a ++ { c with status := st } :: b := by
  rw [List.map_append, List.map_cons]
  rw [show a.map (fun x => if x.id ∈ [cid] then { x with status := st } else x) = a.map id
    from List.map_congr_left (fun x hx => by simp [ha x hx]), List.map_id]
  rw [show b.map (fun x => if x.id ∈ [cid] then { x with status := st } else x) = b.map id
    from List.map_congr_left (fun x hx => by simp [hb x hx]), List.map_id]
  simp [hcid]

theorem countUploaded_append (l1 l2 : List FileChunk) (fid : Nat) :
    countUploaded (l1 ++ l2) fid = countUploaded l1 fid + countUploaded l2 fid := by
  unfold countUploaded
  rw [← List.countP_eq_length_filter, ← List.countP_eq_length_filter,
    ← List.countP_eq_length_filter, List.countP_append]

theorem countUploaded_cons (x : FileChunk) (cs : List FileChunk) (fid : Nat) :
    countUploaded (x :: cs) fid =
      countUploaded cs fid +
        (if x.parentId = fid ∧ x.status = FileStatus.uploaded then 1 else 0) := by
  unfold countUploaded
  rw [← List.countP_eq_length_filter, ← List.countP_eq_length_filter, List.countP_cons]
  by_cases h : x.parentId = fid ∧ x.status = FileStatus.uploaded <;> simp [h]

/-- The complete success run of `executeUpload` when the storage write
succeeds with final disk `d2` and directories `ds2`. -/
theorem executeUpload_write_ok_run (s : ServerState) (input : UploadInput)
    (f : File) (c : FileChunk)
    (hf : getFileById s input.fileId = some f)
    (hc : getChunkByNumber s input.fileId input.chunkNumber = some c)
    (hfst : f.status = FileStatus.initialized ∨ f.status = FileStatus.inProgress)
    (hcst : c.status = FileStatus.initialized)
    (d2 : Disk) (ds2 : List String)
    (hw : writeChunkFS
        (if f.status = FileStatus.initialized then
          updateFileAndChunkStatus s f.id [c.id] FileStatus.inProgress
        else updateChunksStatus s [c.id] FileStatus.inProgress).disk
        (if f.status = FileStatus.initialized then
          updateFileAndChunkStatus s f.id [c.id] FileStatus.inProgress
        else updateChunksStatus s [c.id] FileStatus.inProgress).dirs
        c.filePath input.reads = (d2, ds2, none)) :
    executeUpload s input =
      (let s1 :=
        if f.status = FileStatus.initialized then
          updateFileAndChunkStatus s f.id [c.id] FileStatus.inProgress
        else updateChunksStatus s [c.id] FileStatus.inProgress
      let s3 := updateChunksStatus { s1 with disk := d2, dirs := ds2 }
        [c.id] FileStatus.uploaded
      let s4 := { s3 with files := s3.files.map (fun f0 =>
            if f0.id = f.id then { f0 with uploadedChunks := f0.uploadedChunks + 1 } else f0) }
      if f.uploadedChunks + 1 = f.totalChunks then
        (updateFileStatus s4 f.id FileStatus.uploaded, none)
      else (s4, none)) := by
  have hfid : f.id = input.fileId := getFileById_id_eq s input.fileId f hf
  rw [executeUpload_success_shape s input f c hf hc hfst hcst]
  by_cases hin : f.status = FileStatus.initialized
  · rw [if_pos hin] at hw ⊢
    dsimp only
    rw [hw]
    dsimp only
    have e1 : getFileById
        (updateChunksStatus
          { files := (updateFileAndChunkStatus s f.id [c.id] FileStatus.inProgress).files,
            chunks := (updateFileAndChunkStatus s f.id [c.id] FileStatus.inProgress).chunks,
            disk := d2, dirs := ds2,
            available := (updateFileAndChunkStatus s f.id [c.id] FileStatus.inProgress).available,
            nextFileId := (updateFileAndChunkStatus s f.id [c.id] FileStatus.inProgress).nextFileId,
            nextChunkId := (updateFileAndChunkStatus s f.id [c.id] FileStatus.inProgress).nextChunkId }
          [c.id] FileStatus.uploaded) f.id =
        some { f with status := FileStatus.inProgress } := by
      show getFileById (updateFileAndChunkStatus s f.id [c.id] FileStatus.inProgress) f.id =
        some { f with status := FileStatus.inProgress }
      rw [getFileById_updateFileAndChunkStatus, hfid, hf]
      simp [hfid]
    rw [incrementUploadedChunks_found _ _ _ e1]
  · rw [if_neg hin] at hw ⊢
    dsimp only
    rw [hw]
    dsimp only
    have e1 : getFileById
        (updateChunksStatus
          { files := (updateChunksStatus s [c.id] FileStatus.inProgress).files,
            chunks := (updateChunksStatus s [c.id] FileStatus.inProgress).chunks,
            disk := d2, dirs := ds2,
            available := (updateChunksStatus s [c.id] FileStatus.inProgress).available,
            nextFileId := (updateChunksStatus s [c.id] FileStatus.inProgress).nextFileId,
            nextChunkId := (updateChunksStatus s [c.id] FileStatus.inProgress).nextChunkId }
          [c.id] FileStatus.uploaded) f.id = some f := by
      show getFileById s f.id = some f
      rw [hfid]
      exact hf
    rw [incrementUploadedChunks_found _ _ _ e1]

/-- C7 (amended).  I1 holds at operation granularity: a complete successful
`WriteChunk` preserves it (the written chunk moves to UPLOADED and the
parent's counter is incremented by one; other rows are untouched).  The
invariant does not hold at every interior transaction commit — see the
counterexample — because the chunk promotion and the counter increment are
separate transactions. -/
theorem writeChunk_success_preserves_i1 (s : ServerState) (input : UploadInput)
    (hnd : (s.chunks.map (fun x => x.id)).Nodup)
    (hI : I1 s)
    (hok : (executeUpload s input).2 = none) :
    I1 (executeUpload s input).1 := by
  cases hfo : getFileById s input.fileId with
  | none => simp [executeUpload, hfo] at hok
  | some f =>
  cases hco : getChunkByNumber s input.fileId input.chunkNumber with
  | none => simp [executeUpload, hfo, hco] at hok
  | some c =>
  by_cases hguard : ((f.status = FileStatus.initialized ∨ f.status = FileStatus.inProgress)
      ∧ c.status = FileStatus.initialized)
  case neg => simp [executeUpload, hfo, hco, hguard] at hok
  case pos =>
  have hfid : f.id = input.fileId := getFileById_id_eq s input.fileId f hfo
  have hkeys := getChunkByNumber_keys_eq s input.fileId input.chunkNumber c hco
  have hcmem := getChunkByNumber_mem s input.fileId input.chunkNumber c hco
  have hcp : c.parentId = f.id := by rw [hkeys.1, hfid]
  rcases hwq : writeChunkFS
      (if f.status = FileStatus.initialized then
        updateFileAndChunkStatus s f.id [c.id] FileStatus.inProgress
      else updateChunksStatus s [c.id] FileStatus.inProgress).disk
      (if f.status = FileStatus.initialized then
        updateFileAndChunkStatus s f.id [c.id] FileStatus.inProgress
      else updateChunksStatus s [c.id] FileStatus.inProgress).dirs
      c.filePath input.reads with ⟨d2, ds2, oe⟩
  cases oe with
  | some e =>
    rw [executeUpload_success_shape s input f c hfo hco hguard.1 hguard.2] at hok
    dsimp only at hok
    rw [hwq] at hok
    simp at hok
  | none =>
  rw [executeUpload_write_ok_run s input f c hfo hco hguard.1 hguard.2 d2 ds2 hwq]
  obtain ⟨a, b, hab⟩ := List.append_of_mem hcmem
  have hsplit := ids_split a b c (by rw [← hab]; exact hnd)
  have hd1 : s.chunks.map
      (fun x => if x.id ∈ [c.id] then { x with status := FileStatus.inProgress } else x) =
      a ++ { c with status := FileStatus.inProgress } :: b := by
    rw [hab]
    exact chunkUpdate_decomp a b c c.id FileStatus.inProgress rfl hsplit.1 hsplit.2
  have hd2c : (a ++ ({ c with status := FileStatus.inProgress } : FileChunk) :: b).map
      (fun x => if x.id ∈ [c.id] then { x with status := FileStatus.uploaded } else x) =
      a ++ { c with status := FileStatus.uploaded } :: b :=
    chunkUpdate_decomp a b { c with status := FileStatus.inProgress } c.id
      FileStatus.uploaded rfl hsplit.1 hsplit.2
  have hcnt : ∀ fid, countUploaded (a ++ ({ c with status := FileStatus.uploaded } : FileChunk) :: b) fid =
      countUploaded s.chunks fid + (if c.parentId = fid then 1 else 0) := by
    intro fid
    rw [hab, countUploaded_append, countUploaded_cons, countUploaded_append, countUploaded_cons]
    have hcs : c.status = FileStatus.initialized := hguard.2
    by_cases hp : c.parentId = fid
    · simp [hp, hcs]
      omega
    · simp [hp, hcs]
  dsimp only
  by_cases hin : f.status = FileStatus.initialized
  · rw [if_pos hin]
    by_cases hlast : f.uploadedChunks + 1 = f.totalChunks
    · rw [if_pos hlast]
      simp only [updateFileStatus, updateChunksStatus, updateFileAndChunkStatus]
      intro g hg
      dsimp only at hg ⊢
      rw [hd1, hd2c, hcnt]
      simp only [List.mem_map] at hg
      obtain ⟨x2, ⟨x1, ⟨x, hx, rfl⟩, rfl⟩, rfl⟩ := hg
      have hIx := hI x hx
      by_cases hxid : x.id = f.id
      · rw [hxid] at hIx
        simp [hxid, hcp]
        omega
      · simp [hxid]
        rw [if_neg (fun h2 => hxid (Eq.symm (Eq.trans (Eq.symm hcp) h2)))]
        simpa using hIx
    · rw [if_neg hlast]
      simp only [updateChunksStatus, updateFileAndChunkStatus]
      intro g hg
      dsimp only at hg ⊢
      rw [hd1, hd2c, hcnt]
      simp only [List.mem_map] at hg
      obtain ⟨x1, ⟨x, hx, rfl⟩, rfl⟩ := hg
      have hIx := hI x hx
      by_cases hxid : x.id = f.id
      · rw [hxid] at hIx
        simp [hxid, hcp]
        omega
      · simp [hxid]
        rw [if_neg (fun h2 => hxid (Eq.symm (Eq.trans (Eq.symm hcp) h2)))]
        simpa using hIx
  · rw [if_neg hin]
    by_cases hlast : f.uploadedChunks + 1 = f.totalChunks
    · rw [if_pos hlast]
      simp only [updateFileStatus, updateChunksStatus]
      intro g hg
      dsimp only at hg ⊢
      rw [hd1, hd2c, hcnt]
      simp only [List.mem_map] at hg
      obtain ⟨x1, ⟨x, hx, rfl⟩, rfl⟩ := hg
      have hIx := hI x hx
      by_cases hxid : x.id = f.id
      · rw [hxid] at hIx
        simp [hxid, hcp]
        omega
      · simp [hxid]
        rw [if_neg (fun h2 => hxid (Eq.symm (Eq.trans (Eq.symm hcp) h2)))]
        simpa using hIx
    · rw [if_neg hlast]
      simp only [updateChunksStatus]
      intro g hg
      dsimp only at hg ⊢
      rw [hd1, hd2c, hcnt]
      simp only [List.mem_map] at hg
      obtain ⟨x, hx, rfl⟩ := hg
      have hIx := hI x hx
      by_cases hxid : x.id = f.id
      · rw [hxid] at hIx
        simp [hxid, hcp]
        omega
      · simp [hxid]
        rw [if_neg (fun h2 => hxid (Eq.symm (Eq.trans (Eq.symm hcp) h2)))]
        simpa using hIx

theorem I1_of_checkI1 (s : ServerState) (h : checkI1 s = true) : I1 s := by
  intro f hf
  have h2 := List.all_eq_true.mp h f hf
  simpa using h2

/-- Witness for C7 (amended): the successful last-chunk write on
`stateOneUploaded` preserves I1. -/
theorem writeChunk_success_preserves_i1_witness :
    I1 (executeUpload stateOneUploaded lastChunkInput).1 :=
  writeChunk_success_preserves_i1 stateOneUploaded lastChunkInput (by decide)
    (I1_of_checkI1 stateOneUploaded (by decide)) (by decide)
